import Mathlib

/-!
Verification of the concurrent batch-transcoding orchestrator
(`video_encoder.py` with its `VideoEncoder` / `AsyncVideoEncoder` classes, and
`video_encoder_cloudinary.py` with `AsyncVideoEncoderCloudinary`).

The embedding models the file system as an association list from absolute
path to file size (the code only ever inspects sizes, renames, removes and
creates files), Python exceptions as `Except` values carrying the file-system
state at raise time, the CSV audit log as a list of rows, the JSON registry
as an explicit structure together with its serialized form, and the
asyncio/semaphore scheduling as a labelled transition system.
-/

/-- File system: a finite map from absolute path to file size in bytes,
represented as an association list (first binding wins). -/
abbrev FS := List (String × Nat)

/-- Size of the file at a path, `none` when no file exists there. -/
def FS.lookup : FS → String → Option Nat
  | [], _ => none
  | (q, sz) :: rest, p => if q = p then some sz else FS.lookup rest p

/-- Delete every binding for a path (models `os.remove` succeeding). -/
def FS.erase : FS → String → FS
  | [], _ => []
  | (q, sz) :: rest, p =>
      if q = p then FS.erase rest p else (q, sz) :: FS.erase rest p

/-- Create or overwrite the file at a path with the given size. -/
def FS.setSize (fs : FS) (p : String) (sz : Nat) : FS :=
  (p, sz) :: fs.erase p

/-- Embedding of `get_file_size`: `os.path.getsize`, with `OSError`
(e.g. missing file) caught and converted to `0`. -/
def get_file_size (fs : FS) (p : String) : Nat :=
  (fs.lookup p).getD 0

/-- Embedding of `os.remove`: raises (error) when the path has no file. -/
def osRemove (fs : FS) (p : String) : Except Unit FS :=
  match fs.lookup p with
  | none => .error ()
  | some _ => .ok (fs.erase p)

/-- Embedding of `os.rename`: raises when the source is missing, otherwise
moves the source's content onto the destination (overwriting it). -/
def osRename (fs : FS) (src dst : String) : Except Unit FS :=
  match fs.lookup src with
  | none => .error ()
  | some sz => .ok ((fs.erase src).setSize dst sz)

/-- The `try` block of `AsyncVideoEncoder.replace_original_file`
(`video_encoder.py` lines 1020-1055; identical in `VideoEncoder`).
An exception carries the file-system state at raise time.
`size_reduction_percent = ((original_size - encoded_size) / original_size) * 100`
raises `ZeroDivisionError` when `original_size` is `0`, before the size
comparison is reached. -/
def replaceTry (fs : FS) (original_path encoded_path : String) :
    Except FS (FS × Bool) :=
  let original_size := get_file_size fs original_path
  let encoded_size := get_file_size fs encoded_path
  if original_size = 0 then
    -- ZeroDivisionError in the size_reduction_percent computation
    .error fs
  else if original_size ≤ encoded_size then
    -- encoded_size >= original_size: remove the encoded file, return False
    match osRemove fs encoded_path with
    | .error _ => .error fs
    | .ok fs1 => .ok (fs1, false)
  else
    match osRename fs original_path (original_path ++ ".backup") with
    | .error _ => .error fs
    | .ok fs1 =>
      match osRename fs1 encoded_path original_path with
      | .error _ => .error fs1
      | .ok fs2 =>
        match osRemove fs2 (original_path ++ ".backup") with
        | .error _ => .error fs2
        | .ok fs3 => .ok (fs3, true)

/-- Embedding of `AsyncVideoEncoder.replace_original_file` including the
`except` handler (lines 1057-1069): on any exception, if a sibling backup
exists and the original path is empty, the backup is renamed back onto the
original path (failures of that restore are swallowed), and `False` is
returned. -/
def replace_original_file (fs : FS) (original_path encoded_path : String) :
    FS × Bool :=
  match replaceTry fs original_path encoded_path with
  | .ok r => r
  | .error fs1 =>
    let backup_path := original_path ++ ".backup"
    if (fs1.lookup backup_path).isSome then
      if (fs1.lookup original_path).isNone then
        match osRename fs1 backup_path original_path with
        | .ok fs2 => (fs2, false)
        | .error _ => (fs1, false)
      else (fs1, false)
    else (fs1, false)

/-- The `try` block of `AsyncVideoEncoderCloudinary.replace_original_file`
(`video_encoder_cloudinary.py` lines 339-381): on size-rejection it returns
`False` without touching anything (the temp file is not discarded here);
otherwise it renames the original to a sibling backup (only when no backup
exists yet), renames the encoded file into place, re-reads the new size and
compares it with the encoded size, and returns — the backup is never
deleted (`os.remove(backup_path)` is commented out in the source). -/
def cloudinaryReplaceTry (fs : FS) (original_path encoded_path : String) :
    Except FS (FS × Bool) :=
  let original_size := get_file_size fs original_path
  let encoded_size := get_file_size fs encoded_path
  if original_size ≤ encoded_size then
    .ok (fs, false)
  else
    let backup_path := original_path ++ ".backup"
    let step1 : Except FS FS :=
      if (fs.lookup backup_path).isSome then .ok fs
      else
        match osRename fs original_path backup_path with
        | .ok fs1 => .ok fs1
        | .error _ => .error fs
    match step1 with
    | .error fs' => .error fs'
    | .ok fs1 =>
      match osRename fs1 encoded_path original_path with
      | .error _ => .error fs1
      | .ok fs2 =>
        let new_size := get_file_size fs2 original_path
        if new_size = encoded_size then .ok (fs2, true) else .ok (fs2, false)

/-- Embedding of `AsyncVideoEncoderCloudinary.replace_original_file`
including its `except` handler, which only logs and returns `False`. -/
def replace_original_file_cloudinary (fs : FS)
    (original_path encoded_path : String) : FS × Bool :=
  match cloudinaryReplaceTry fs original_path encoded_path with
  | .ok r => r
  | .error fs1 => (fs1, false)

/-- Helper for `os.path.basename`: the characters after the last slash,
accumulating the current segment in reverse. -/
def basenameAux (cur : List Char) : List Char → List Char
  | [] => cur.reverse
  | c :: cs => if c = '/' then basenameAux [] cs else basenameAux (c :: cur) cs

/-- Last path component, as `os.path.basename` on slash-separated paths. -/
def basename (p : String) : String :=
  ⟨basenameAux [] p.data⟩

/-- Stem of a file name, as `os.path.splitext(name)[0]`: everything before
the final dot (the whole name when there is no dot). -/
def splitextBase (s : String) : String :=
  match s.data.reverse.dropWhile (fun c => c ≠ '.') with
  | [] => s
  | _ :: before => ⟨before.reverse⟩

/-- Python `str.lower` (restricted to the ASCII case mapping). -/
def lowerName (s : String) : String :=
  ⟨s.data.map Char.toLower⟩

/-- Does the second list start with the first one? -/
def leadMatch : List Char → List Char → Bool
  | [], _ => true
  | _ :: _, [] => false
  | a :: as, b :: bs => a = b && leadMatch as bs

/-- Does the list contain the pattern as a contiguous run? -/
def subMatch (pat : List Char) : List Char → Bool
  | [] => pat.isEmpty
  | b :: bs => leadMatch pat (b :: bs) || subMatch pat bs

/-- Python's `pattern in string` substring test. -/
def strContains (s pat : String) : Bool :=
  subMatch pat.data s.data

/-- Python's `str.endswith`. -/
def strEndsWith (s pat : String) : Bool :=
  leadMatch pat.data.reverse s.data.reverse

/-- Lexicographic strict order on character lists by code point — the
comparison Python's `sorted` applies to directory-name strings. -/
def lexLt : List Char → List Char → Bool
  | [], [] => false
  | [], _ :: _ => true
  | _ :: _, [] => false
  | a :: as, b :: bs =>
    if a.toNat < b.toNat then true
    else if b.toNat < a.toNat then false
    else lexLt as bs

/-- Strict lexicographic order on strings by code point. -/
def strLtB (a b : String) : Bool := lexLt a.data b.data

/-- Reflexive lexicographic order on strings by code point. -/
def strLeB (a b : String) : Bool := !(strLtB b a)

/-- Python `str.isdigit` on directory names: nonempty and all digits. -/
def isDigitName (s : String) : Bool :=
  !s.isEmpty && s.data.all Char.isDigit

/-- Configured minimum size threshold in MB (`min_size_mb = 10`). -/
def min_size_mb : Nat := 10

/-- Configured maximum size threshold in MB (`max_size_mb = 500`). -/
def max_size_mb : Nat := 500

/-- The `skip_patterns` list of `AsyncVideoEncoder.should_encode_video`. -/
def skip_patterns : List String :=
  ["_compressed", "_encoded", "_optimized", "_small",
   "_mobile", "_web", "_720p", "_480p"]

/-- The `skip_patterns` list of the Cloudinary variant, which adds
`"_cloudinary"`. -/
def skip_patterns_cloudinary : List String :=
  ["_compressed", "_encoded", "_optimized", "_small",
   "_mobile", "_web", "_720p", "_480p", "_cloudinary"]

/-- Embedding of `AsyncVideoEncoder.should_encode_video`
(`video_encoder.py` lines 725-760): reject files smaller than 10 MiB or
larger than 500 MiB, and files whose lowercased base name contains one of
the configured skip patterns. It reads sizes but mutates nothing. -/
def should_encode_video (fs : FS) (file_path : String) : Bool :=
  let file_size := get_file_size fs file_path
  if file_size < min_size_mb * 1024 * 1024 then false
  else if max_size_mb * 1024 * 1024 < file_size then false
  else
    let filename := lowerName (basename file_path)
    if skip_patterns.any (fun pat => strContains filename pat) then false
    else true

/-- Embedding of `AsyncVideoEncoderCloudinary.should_encode_video`
(`video_encoder_cloudinary.py` lines 172-207), identical except for the
extra `"_cloudinary"` skip pattern. -/
def should_encode_video_cloudinary (fs : FS) (file_path : String) : Bool :=
  let file_size := get_file_size fs file_path
  if file_size < min_size_mb * 1024 * 1024 then false
  else if max_size_mb * 1024 * 1024 < file_size then false
  else
    let filename := lowerName (basename file_path)
    if skip_patterns_cloudinary.any (fun pat => strContains filename pat) then false
    else true

/-- One element of the `encoded_files` list kept by `AsyncVideoEncoder`
and persisted to `encoded_files.json`. -/
structure EncRecord where
  filename : String
  path : String
  encoded_date : String
  original_size : Nat
  encoded_size : Nat
deriving DecidableEq

/-- The in-memory `self.encoded_files["encoded_files"]` list. -/
abbrev Registry := List EncRecord

/-- Embedding of `AsyncVideoEncoder.is_file_already_encoded`
(`video_encoder.py` lines 1201-1207): a linear scan comparing the stored
`path` field with the queried path. -/
def is_file_already_encoded (reg : Registry) (file_path : String) : Bool :=
  reg.any (fun r => r.path = file_path)

/-- Embedding of the list mutation performed by
`AsyncVideoEncoder.add_encoded_file` (lines 1209-1223): append one record
built from the path, the two sizes and the current time. -/
def add_encoded_file (reg : Registry) (file_path : String)
    (original_size encoded_size : Nat) (now : String) : Registry :=
  reg ++ [⟨basename file_path, file_path, now, original_size, encoded_size⟩]

/-- A sequence of later `add_encoded_file` calls
(path, original size, encoded size, timestamp), applied in order. -/
def applyAdds (reg : Registry) (adds : List (String × Nat × Nat × String)) :
    Registry :=
  adds.foldl (fun r a => add_encoded_file r a.1 a.2.1 a.2.2.1 a.2.2.2) reg

/-- One row of the CSV audit log as written by `log_to_csv`
(`video_encoder.py` lines 691-703): filename, before size, after size,
status, elapsed seconds (the timestamp column is kept abstract). -/
structure CsvRow where
  filename : String
  before_size : Nat
  after_size : Nat
  status : String
deriving DecidableEq

/-- Outcome of the `subprocess.run` call inside `encode_video_ffmpeg`:
either the wall-clock timeout fired (`subprocess.TimeoutExpired`) or the
process finished with an exit code. -/
inductive SubprocessResult
  | timedOut
  | completed (returncode : Nat)
deriving DecidableEq

/-- Environment oracle for one FFmpeg encode attempt: the subprocess
outcome and the state of the temp output path afterwards (`none` when no
file was created there). -/
structure FfmpegEnv where
  result : SubprocessResult
  out : Option Nat
deriving DecidableEq

/-- Temp output path used by `encode_video_ffmpeg`:
`TEMP_DIR/encoded_<stem>.mp4`. -/
def ffmpegTempPath (input_file_path : String) : String :=
  "/tmp/cloudconvert_temp/encoded_" ++ splitextBase (basename input_file_path) ++ ".mp4"

/-- Apply the subprocess's effect on the temp output path. -/
def applyOut (fs : FS) (temp : String) : Option Nat → FS
  | none => fs.erase temp
  | some sz => fs.setSize temp sz

/-- Embedding of `AsyncVideoEncoder.encode_video_ffmpeg`
(`video_encoder.py` lines 908-1018). Returns the file system after the
attempt, the CSV rows appended, the temp path handed back on success, and
whether an exception escaped (only the re-raised timeout escapes; every
other error is converted into a `None` return after one `ffmpeg_failed`
CSV row and best-effort temp cleanup). The success path computes
`compression_ratio = ((original_size - encoded_size) / original_size) * 100`,
so a zero-sized original raises `ZeroDivisionError` there and lands in the
generic handler before the success row is written. -/
def encode_video_ffmpeg (fs : FS) (input_file_path : String) (e : FfmpegEnv) :
    FS × List CsvRow × Option String × Bool :=
  let original_size := get_file_size fs input_file_path
  let temp := ffmpegTempPath input_file_path
  match e.result with
  | .timedOut =>
    -- one 'ffmpeg_timeout' row, then `raise Exception(...)`: no cleanup here
    let fs1 := applyOut fs temp e.out
    (fs1, [⟨basename input_file_path, get_file_size fs1 input_file_path, 0, "ffmpeg_timeout"⟩],
     none, true)
  | .completed rc =>
    let fs1 := applyOut fs temp e.out
    if rc ≠ 0 then
      (fs1.erase temp,
       [⟨basename input_file_path, original_size, 0, "ffmpeg_failed: FFmpeg failed"⟩],
       none, false)
    else
      match fs1.lookup temp with
      | none =>
        (fs1, [⟨basename input_file_path, original_size, 0,
               "ffmpeg_failed: Output file was not created"⟩], none, false)
      | some sz =>
        if sz = 0 then
          (fs1.erase temp,
           [⟨basename input_file_path, original_size, 0,
             "ffmpeg_failed: Output file is empty"⟩], none, false)
        else if original_size = 0 then
          -- ZeroDivisionError computing compression_ratio, caught generically
          (fs1.erase temp,
           [⟨basename input_file_path, original_size, 0,
             "ffmpeg_failed: division by zero"⟩], none, false)
        else
          (fs1, [⟨basename input_file_path, original_size, sz, "ffmpeg_success"⟩],
           some temp, false)

/-- Environment oracle for one CloudConvert encode attempt
(`AsyncVideoEncoder.encode_video`, lines 762-906): whether the job reached
`finished`, whether a finished export task with a result was present,
whether it listed any output files, and the size of the downloaded file. -/
structure CcEnv where
  jobFinished : Bool
  exportOk : Bool
  hasFiles : Bool
  downloadedSize : Nat
deriving DecidableEq

/-- Temp output path used by `encode_video`: `TEMP_DIR/encoded_<name>`. -/
def ccTempPath (input_file_path : String) : String :=
  "/tmp/cloudconvert_temp/encoded_" ++ basename input_file_path

/-- Embedding of `AsyncVideoEncoder.encode_video`: each failure mode raises,
lands in the single `except` handler and appends one `failed: ...` row;
the success path downloads the file and appends one `success` row. -/
def encode_video_cc (fs : FS) (input_file_path : String) (e : CcEnv) :
    FS × List CsvRow × Option String :=
  let original_size := get_file_size fs input_file_path
  let temp := ccTempPath input_file_path
  if !e.jobFinished then
    (fs, [⟨basename input_file_path, original_size, 0,
          "failed: Job failed with status"⟩], none)
  else if !e.exportOk then
    (fs, [⟨basename input_file_path, original_size, 0,
          "failed: Export task not found or failed"⟩], none)
  else if !e.hasFiles then
    (fs, [⟨basename input_file_path, original_size, 0,
          "failed: No output files found"⟩], none)
  else
    let fs1 := fs.setSize temp e.downloadedSize
    (fs1, [⟨basename input_file_path, original_size, e.downloadedSize, "success"⟩],
     some temp)

/-- Result of `AsyncVideoEncoder.process_single_video_async` for one file:
whether the encode backend was invoked, whether the file was replaced,
whether an exception escaped the coroutine (the re-raised FFmpeg timeout),
and the registry, file system and CSV rows it leaves behind. -/
structure ProcOut where
  encodeInvoked : Bool
  replaced : Bool
  raised : Bool
  reg : Registry
  fs : FS
  csv : List CsvRow
deriving DecidableEq

/-- Embedding of `AsyncVideoEncoder.process_single_video_async`
(`video_encoder.py` lines 1234-1270) in the default `USE_LOCAL_FFMPEG`
configuration: skip when the registry already has the path, skip when
ineligible, otherwise run the FFmpeg backend; on success run the replacer
and either record the file or clean up the temp file. -/
def process_single_video (reg : Registry) (fs : FS) (video_file now : String)
    (e : FfmpegEnv) : ProcOut :=
  if is_file_already_encoded reg video_file then
    ⟨false, false, false, reg, fs, []⟩
  else if !(should_encode_video fs video_file) then
    ⟨false, false, false, reg, fs, []⟩
  else
    let original_size := get_file_size fs video_file
    match encode_video_ffmpeg fs video_file e with
    | (fs1, rows, encOpt, raised) =>
      if raised then ⟨true, false, true, reg, fs1, rows⟩
      else
        match encOpt with
        | none => ⟨true, false, false, reg, fs1, rows⟩
        | some encoded_file =>
          let encoded_size := get_file_size fs1 encoded_file
          match replace_original_file fs1 video_file encoded_file with
          | (fs2, true) =>
            ⟨true, true, false,
             add_encoded_file reg video_file original_size encoded_size now,
             fs2, rows⟩
          | (fs2, false) =>
            ⟨true, false, false, reg, fs2.erase encoded_file, rows⟩

/-- Embedding of `AsyncVideoEncoder.process_videos_async`
(`video_encoder.py` lines 1272-1293): `asyncio.gather(*tasks,
return_exceptions=True)` runs the coroutine of every file in the list and
converts a raised exception into a captured per-file result, so processing
continues with the remaining files. -/
def process_videos_async (reg : Registry) (fs : FS) (now : String) :
    List (String × FfmpegEnv) → Registry × FS × List ProcOut
  | [] => (reg, fs, [])
  | (video_file, e) :: rest =>
    let out := process_single_video reg fs video_file now e
    let (reg', fs', outs) := process_videos_async out.reg out.fs now rest
    (reg', fs', out :: outs)

/-- The success count computed from the gathered results: exceptions are
only logged, `True` results are counted. -/
def processed_count (outs : List ProcOut) : Nat :=
  outs.countP (fun o => o.replaced)

/-- Embedding of the exit logic of `main()` (`video_encoder.py` lines
1418-1425): an exception escaping the scan exits with code 2 when its
message contains "timeout", otherwise 1; a normal return exits 0. -/
def main_exit_code (escaped : Option String) : Nat :=
  match escaped with
  | none => 0
  | some msg => if strContains (lowerName msg) "timeout" then 2 else 1

/-- The configured concurrency limit (`MAX_CONCURRENT_JOBS = 3`), used both
for `asyncio.Semaphore(MAX_CONCURRENT_JOBS)` and for
`ThreadPoolExecutor(max_workers=MAX_CONCURRENT_JOBS)`. -/
def MAX_CONCURRENT_JOBS : Nat := 3

/-- Scheduler state of one run: how many encode attempts are still waiting
to start, how many are dispatched and not yet completed (holding a
semaphore permit / thread-pool worker), and how many have completed. -/
structure SchedState where
  waiting : Nat
  running : Nat
  completed : Nat
deriving DecidableEq

/-- One scheduling step of the orchestrator's concurrency control
(`asyncio.Semaphore(MAX_CONCURRENT_JOBS)` in `AsyncVideoEncoder.__init__`
line 663 acquired in `encode_video_async` / the Cloudinary
`process_single_video_async`, and `ThreadPoolExecutor(max_workers
= MAX_CONCURRENT_JOBS)` line 660 for the FFmpeg path): a waiting attempt
may start only while fewer than `N` are running, and a running attempt may
complete. -/
inductive SemStep (N : Nat) : SchedState → SchedState → Prop
  | acquire (w r c : Nat) : 0 < w → r < N →
      SemStep N ⟨w, r, c⟩ ⟨w - 1, r + 1, c⟩
  | release (w r c : Nat) : 0 < r →
      SemStep N ⟨w, r, c⟩ ⟨w, r - 1, c + 1⟩

/-- States reachable by scheduling steps from an initial state. -/
inductive SemReach (N : Nat) (init : SchedState) : SchedState → Prop
  | refl : SemReach N init init
  | step {s t : SchedState} : SemReach N init s → SemStep N s t →
      SemReach N init t

/-- Abstract JSON values, for the persisted registry formats. -/
inductive Json
  | str (s : String)
  | num (n : Nat)
  | arr (elems : List Json)
  | obj (fields : List (String × Json))

/-- Serialization of one registry record, matching the dict literal built
in `AsyncVideoEncoder.add_encoded_file`. -/
def serializeRecord (r : EncRecord) : Json :=
  .obj [("filename", .str r.filename), ("path", .str r.path),
        ("encoded_date", .str r.encoded_date),
        ("original_size", .num r.original_size),
        ("encoded_size", .num r.encoded_size)]

/-- Serialization of the whole `self.encoded_files` dict of
`AsyncVideoEncoder`, as dumped by `save_encoded_files`. -/
def serializeMainRegistry (l : List EncRecord) : Json :=
  .obj [("encoded_files", .arr (l.map serializeRecord))]

/-- Does a JSON value have the persisted-registry shape stated by the spec:
a single object `{ "encoded_files": [ {filename, path, encoded_date,
original_size, encoded_size}, ... ] }`? -/
def isRecordShape : Json → Bool
  | .obj [("filename", .str _), ("path", .str _), ("encoded_date", .str _),
          ("original_size", .num _), ("encoded_size", .num _)] => true
  | _ => false

/-- Shape check for the whole persisted structure claimed by the spec. -/
def isClaimedRegistryShape : Json → Bool
  | .obj [("encoded_files", .arr entries)] => entries.all isRecordShape
  | _ => false

/-- In-memory state of `AsyncVideoEncoder`'s registry plus the content of
`encoded_files.json` on storage (`none` before the first save). -/
structure MainRegistryState where
  encoded_files : List EncRecord
  storage : Option Json

/-- Embedding of `AsyncVideoEncoder.save_encoded_files` (`video_encoder.py`
lines 1193-1199): `json.dump` rewrites the whole structure. -/
def save_encoded_files (s : MainRegistryState) : MainRegistryState :=
  { s with storage := some (serializeMainRegistry s.encoded_files) }

/-- Embedding of `AsyncVideoEncoder.add_encoded_file` at the state level
(lines 1209-1223): append the record, then save the full structure before
returning. -/
def add_encoded_file_state (s : MainRegistryState) (file_path : String)
    (original_size encoded_size : Nat) (now : String) : MainRegistryState :=
  save_encoded_files
    { s with encoded_files :=
        add_encoded_file s.encoded_files file_path original_size encoded_size now }

/-- Record value stored by the Cloudinary variant's `add_encoded_file`
(`video_encoder_cloudinary.py` lines 408-416). -/
structure CloudRecord where
  original_size : Nat
  encoded_size : Nat
  encoded_date : String
  cloudinary_public_id : String
deriving DecidableEq

/-- Python dict assignment `d[k] = v` on an insertion-ordered dict:
update in place when the key exists, else append. -/
def dictSet : List (String × CloudRecord) → String → CloudRecord →
    List (String × CloudRecord)
  | [], p, r => [(p, r)]
  | (q, r0) :: rest, p, r =>
    if q = p then (q, r) :: rest else (q, r0) :: dictSet rest p r

/-- Serialization of the Cloudinary variant's `self.encoded_files` dict,
which is keyed directly by file path. -/
def serializeCloudRegistry (l : List (String × CloudRecord)) : Json :=
  .obj (l.map fun pr =>
    (pr.1, .obj [("original_size", .num pr.2.original_size),
                 ("encoded_size", .num pr.2.encoded_size),
                 ("encoded_date", .str pr.2.encoded_date),
                 ("cloudinary_public_id", .str pr.2.cloudinary_public_id)]))

/-- In-memory registry of `AsyncVideoEncoderCloudinary` plus the persisted
content of `encoded_files_cloudinary.json`. -/
structure CloudRegistryState where
  encoded_files : List (String × CloudRecord)
  storage : Option Json

/-- Embedding of `AsyncVideoEncoderCloudinary.add_encoded_file` (lines
408-416): assign the path key in the dict, then `save_encoded_files`
rewrites the whole dict to storage before returning. -/
def add_encoded_file_cloudinary (s : CloudRegistryState) (file_path : String)
    (original_size encoded_size : Nat) (now public_id : String) :
    CloudRegistryState :=
  let files := dictSet s.encoded_files file_path
    ⟨original_size, encoded_size, now, public_id⟩
  { encoded_files := files, storage := some (serializeCloudRegistry files) }

/-- A directory listing of a day folder: entry name and whether the entry
is a regular file. -/
abbrev DayListing := List (String × Bool)

/-- Embedding of `find_video_files` (`video_encoder.py` lines 713-723):
`Path(directory).glob('*.mp4')` filtered by `is_file`, yielding names in
the order the directory listing provides them (glob does not sort). -/
def find_video_files (listing : DayListing) : List String :=
  (listing.filter (fun entry => entry.2 && strEndsWith entry.1 ".mp4")).map
    (fun entry => entry.1)

/-- A day directory entry in the partition tree. -/
structure DayNode where
  name : String
  isDir : Bool
  files : DayListing
deriving DecidableEq

/-- A month directory entry in the partition tree. -/
structure MonthNode where
  name : String
  isDir : Bool
  days : List DayNode
deriving DecidableEq

/-- A year directory entry in the partition tree. -/
structure YearNode where
  name : String
  isDir : Bool
  months : List MonthNode
deriving DecidableEq

/-- Python `sorted(os.listdir(...))`: sort directory entries by name in
lexicographic string order. -/
def sortByName {α : Type} (name : α → String) (l : List α) : List α :=
  l.mergeSort (fun a b => strLeB (name a) (name b))

/-- The directory filter applied at every level of the walk:
`os.path.isdir(path) and name.isdigit()`. -/
def keepDigitDir {α : Type} (isDir : α → Bool) (name : α → String)
    (l : List α) : List α :=
  l.filter (fun a => isDir a && isDigitName (name a))

/-- One month's contribution to the partition walk: its day folders,
sorted and filtered as the source does, tagged with the year and month
directory names. -/
def month_walk (yname : String) (m : MonthNode) :
    List (String × String × String × DayListing) :=
  (keepDigitDir (·.isDir) (·.name) (sortByName (·.name) m.days)).map
    fun d => (yname, m.name, d.name, d.files)

/-- One year's contribution to the partition walk. -/
def year_walk (y : YearNode) :
    List (String × String × String × DayListing) :=
  (keepDigitDir (·.isDir) (·.name) (sortByName (·.name) y.months)).flatMap
    (month_walk y.name)

/-- Partition walk of `AsyncVideoEncoder.scan_all_folders_async`
(`video_encoder.py` lines 1336-1373): at each level the listing is sorted
with `sorted(...)` (string order), non-directories and non-numeric names
are skipped, and the resulting `(year, month, day)` folders are collected
in visit order. -/
def date_folders (years : List YearNode) :
    List (String × String × String × DayListing) :=
  (keepDigitDir (·.isDir) (·.name) (sortByName (·.name) years)).flatMap
    year_walk

/-- The full candidate sequence of a `scan_all_folders_async` run: the
files discovered in each visited day folder, in visit order. -/
def scan_candidates (years : List YearNode) : List String :=
  (date_folders years).flatMap fun t => find_video_files t.2.2.2

/-- Partition walk of `AsyncVideoEncoderCloudinary.scan_all_folders_async`
(`video_encoder_cloudinary.py` lines 523-559): identical except that the
listings are iterated with plain `os.listdir(...)` — no `sorted(...)`. -/
def date_folders_cloudinary (years : List YearNode) :
    List (String × String × String × DayListing) :=
  (keepDigitDir (·.isDir) (·.name) years).flatMap
    fun y =>
      (keepDigitDir (·.isDir) (·.name) y.months).flatMap
        fun m =>
          (keepDigitDir (·.isDir) (·.name) m.days).map
            fun d => (y.name, m.name, d.name, d.files)

/-- Ascending order on visited partitions: by year name, then month name,
then day name, in string order. -/
def tripleLe (a b : String × String × String × DayListing) : Prop :=
  strLtB a.1 b.1 = true ∨
    (a.1 = b.1 ∧ (strLtB a.2.1 b.2.1 = true ∨
      (a.2.1 = b.2.1 ∧ strLeB a.2.2.1 b.2.2.1 = true)))

instance (a b : String × String × String × DayListing) :
    Decidable (tripleLe a b) := by
  unfold tripleLe; infer_instance

/-- Concrete folder state for the timeout scenario: two eligible 20 MiB
files in the same day partition. -/
def fsC4 : FS :=
  [("/Users/volkanoluc/videos/2024/01/02/x.mp4", 20971520),
   ("/Users/volkanoluc/videos/2024/01/02/y.mp4", 20971520)]

/-- Attempt oracles for the timeout scenario: FFmpeg times out on `x.mp4`
and encodes `y.mp4` down to 5 MiB. -/
def filesC4 : List (String × FfmpegEnv) :=
  [("/Users/volkanoluc/videos/2024/01/02/x.mp4", ⟨.timedOut, none⟩),
   ("/Users/volkanoluc/videos/2024/01/02/y.mp4", ⟨.completed 0, some 5242880⟩)]

/-- Fresh Cloudinary registry state (empty dict, nothing persisted). -/
def cloudState0 : CloudRegistryState := ⟨[], none⟩

/-- Concrete partition tree for the discovery witness: two years, each
with one month and one day whose listing is not filename-sorted. -/
def treeC8 : List YearNode :=
  [⟨"2023", true, [⟨"01", true, [⟨"02", true, [("b.mp4", true), ("a.mp4", true)]⟩]⟩]⟩,
   ⟨"2024", true, [⟨"01", true, [⟨"02", true, [("b.mp4", true), ("a.mp4", true)]⟩]⟩]⟩]

/-- Concrete partition tree whose year listing arrives in descending
order, to exhibit the Cloudinary walker's lack of sorting. -/
def treeC8c : List YearNode :=
  [⟨"2024", true, [⟨"01", true, [⟨"02", true, []⟩]⟩]⟩,
   ⟨"2023", true, [⟨"01", true, [⟨"02", true, []⟩]⟩]⟩]

theorem FS.lookup_erase (fs : FS) (p q : String) :
    FS.lookup (FS.erase fs p) q = if p = q then none else FS.lookup fs q := by
  induction fs with
  | nil => simp [FS.erase, FS.lookup]
  | cons hd tl ih =>
    obtain ⟨a, sz⟩ := hd
    simp only [FS.erase]
    by_cases hap : a = p
    · subst hap
      rw [if_pos rfl, ih]
      by_cases haq : a = q
      · simp [haq]
      · simp [FS.lookup, haq]
    · rw [if_neg hap]
      simp only [FS.lookup, ih]
      by_cases haq : a = q
      · subst haq
        have hpq : p ≠ a := fun h => hap h.symm
        simp [hpq]
      · simp [haq]

theorem FS.lookup_setSize (fs : FS) (p q : String) (sz : Nat) :
    FS.lookup (FS.setSize fs p sz) q = if p = q then some sz else FS.lookup fs q := by
  simp only [FS.setSize, FS.lookup, FS.lookup_erase]
  by_cases hpq : p = q <;> simp [hpq]

theorem backup_path_ne (s : String) : s ++ ".backup" ≠ s := by
  intro h
  have h1 := congrArg String.length h
  rw [String.length_append] at h1
  have h7 : (".backup" : String).length = 7 := rfl
  rw [h7] at h1
  omega

/-- C1: for every pair of files (original, encoded) where the encoded
file's size is at least the original file's size, `replace_original_file`
returns `False` and the original file's content is left unchanged, in both
orchestrator variants. (When the original reads as 0 bytes this happens
via the internally caught `ZeroDivisionError`; otherwise via the explicit
size comparison.) -/
theorem C1_replace_size_invariant (fs : FS) (orig enc : String) (so se : Nat)
    (ho : FS.lookup fs orig = some so) (he : FS.lookup fs enc = some se)
    (hne : orig ≠ enc) (hle : so ≤ se) :
    (replace_original_file fs orig enc).2 = false ∧
    FS.lookup (replace_original_file fs orig enc).1 orig = some so ∧
    (replace_original_file_cloudinary fs orig enc).2 = false ∧
    (replace_original_file_cloudinary fs orig enc).1 = fs := by
  have hgo : get_file_size fs orig = so := by simp [get_file_size, ho]
  have hge : get_file_size fs enc = se := by simp [get_file_size, he]
  have hne' : ¬ enc = orig := fun h => hne h.symm
  have hcloud : replace_original_file_cloudinary fs orig enc = (fs, false) := by
    simp [replace_original_file_cloudinary, cloudinaryReplaceTry, hgo, hge, hle]
  by_cases hso : so = 0
  · have htry : replaceTry fs orig enc = .error fs := by
      simp [replaceTry, hgo, hge, hso]
    have hmain : replace_original_file fs orig enc = (fs, false) := by
      simp [replace_original_file, htry, ho]
    simp [hmain, hcloud, ho]
  · have htry : replaceTry fs orig enc = .ok (fs.erase enc, false) := by
      simp [replaceTry, hgo, hge, hso, hle, osRemove, he]
    have hmain : replace_original_file fs orig enc = (fs.erase enc, false) := by
      simp [replace_original_file, htry]
    simp [hmain, hcloud, FS.lookup_erase, hne', ho]

/-- Witness for C1 at a concrete state: a 100-byte original and a
100-byte encoded temp file. -/
theorem C1_replace_size_invariant_witness :
    (replace_original_file [("/v/a.mp4", 100), ("/t/e.mp4", 100)]
        "/v/a.mp4" "/t/e.mp4").2 = false ∧
    FS.lookup (replace_original_file [("/v/a.mp4", 100), ("/t/e.mp4", 100)]
        "/v/a.mp4" "/t/e.mp4").1 "/v/a.mp4" = some 100 ∧
    (replace_original_file_cloudinary [("/v/a.mp4", 100), ("/t/e.mp4", 100)]
        "/v/a.mp4" "/t/e.mp4").2 = false ∧
    (replace_original_file_cloudinary [("/v/a.mp4", 100), ("/t/e.mp4", 100)]
        "/v/a.mp4" "/t/e.mp4").1 = [("/v/a.mp4", 100), ("/t/e.mp4", 100)] :=
  C1_replace_size_invariant [("/v/a.mp4", 100), ("/t/e.mp4", 100)]
    "/v/a.mp4" "/t/e.mp4" 100 100 (by decide) (by decide) (by decide) (by decide)

/-- C10 (amended): `replace_original_file` never propagates an exception;
when the original's size reads as 0 the percentage computation raises
`ZeroDivisionError` before the size comparison (the raise leaves the file
system untouched) and the caught exception makes the call return `False`.
The original path is untouched whenever the original file exists or no
sibling backup exists; but when the original is missing and a stale
sibling `.backup` file exists, the handler renames that backup onto the
original path. -/
theorem C10_replace_total_amended (fs : FS) (orig enc : String)
    (h : get_file_size fs orig = 0) :
    replaceTry fs orig enc = .error fs ∧
    (replace_original_file fs orig enc).2 = false ∧
    ((FS.lookup fs orig).isSome ∨ FS.lookup fs (orig ++ ".backup") = none →
      (replace_original_file fs orig enc).1 = fs) ∧
    (∀ b, FS.lookup fs orig = none →
      FS.lookup fs (orig ++ ".backup") = some b →
      (replace_original_file fs orig enc).1 =
        (FS.erase fs (orig ++ ".backup")).setSize orig b) := by
  have htry : replaceTry fs orig enc = .error fs := by
    simp [replaceTry, h]
  refine ⟨htry, ?_, ?_, ?_⟩
  · simp only [replace_original_file, htry]
    split_ifs <;> try rfl
    cases hr : osRename fs (orig ++ ".backup") orig <;> simp [hr]
  · intro hcase
    simp only [replace_original_file, htry]
    rcases hcase with hsome | hnone
    · obtain ⟨b, hb⟩ := Option.isSome_iff_exists.mp hsome
      simp [hb]
    · simp [hnone]
  · intro b hnone hb
    have hr : osRename fs (orig ++ ".backup") orig =
        .ok ((FS.erase fs (orig ++ ".backup")).setSize orig b) := by
      simp [osRename, hb]
    simp [replace_original_file, htry, hb, hnone, hr]

/-- Witness for C10 at a concrete state: the original `/v/a.mp4` is
missing (size reads 0) and only the encoded temp file exists. -/
theorem C10_replace_total_amended_witness :
    replaceTry [("/t/e.mp4", 5)] "/v/a.mp4" "/t/e.mp4" = .error [("/t/e.mp4", 5)] ∧
    (replace_original_file [("/t/e.mp4", 5)] "/v/a.mp4" "/t/e.mp4").2 = false ∧
    ((FS.lookup [("/t/e.mp4", 5)] "/v/a.mp4").isSome ∨
        FS.lookup [("/t/e.mp4", 5)] ("/v/a.mp4" ++ ".backup") = none →
      (replace_original_file [("/t/e.mp4", 5)] "/v/a.mp4" "/t/e.mp4").1 =
        [("/t/e.mp4", 5)]) ∧
    (∀ b, FS.lookup [("/t/e.mp4", 5)] "/v/a.mp4" = none →
      FS.lookup [("/t/e.mp4", 5)] ("/v/a.mp4" ++ ".backup") = some b →
      (replace_original_file [("/t/e.mp4", 5)] "/v/a.mp4" "/t/e.mp4").1 =
        (FS.erase [("/t/e.mp4", 5)] ("/v/a.mp4" ++ ".backup")).setSize "/v/a.mp4" b) :=
  C10_replace_total_amended [("/t/e.mp4", 5)] "/v/a.mp4" "/t/e.mp4" (by decide)

/-- C10 counterexample: with a stale sibling backup on disk and the
original missing, the call still returns `False` but the original path is
no longer untouched — the handler moves the stale backup there. -/
theorem C10_counterexample :
    get_file_size [("/v/a.mp4.backup", 70)] "/v/a.mp4" = 0 ∧
    FS.lookup [("/v/a.mp4.backup", 70)] "/v/a.mp4" = none ∧
    (replace_original_file [("/v/a.mp4.backup", 70)] "/v/a.mp4" "/t/e.mp4").2 = false ∧
    FS.lookup (replace_original_file [("/v/a.mp4.backup", 70)]
        "/v/a.mp4" "/t/e.mp4").1 "/v/a.mp4" = some 70 := by decide

/-- C9 (amended): in the CloudConvert/FFmpeg orchestrator a successful
replacement performs exactly rename-original-to-backup,
rename-encoded-into-place, delete-backup — so no backup remains after the
call returns `True` — and size-rejection removes the encoded temp file
before returning `False`. In the Cloudinary orchestrator, size-rejection
returns `False` without discarding the temp file (its caller removes it),
and a successful replacement keeps the backup file in place. -/
theorem C9_replace_steps_amended (fs : FS) (orig enc : String) (so se : Nat)
    (ho : FS.lookup fs orig = some so) (he : FS.lookup fs enc = some se)
    (h1 : orig ≠ enc) (h2 : enc ≠ orig ++ ".backup") :
    (se < so →
       replace_original_file fs orig enc =
         (((((fs.erase orig).setSize (orig ++ ".backup") so).erase enc).setSize
             orig se).erase (orig ++ ".backup"), true) ∧
       FS.lookup (replace_original_file fs orig enc).1 (orig ++ ".backup") = none) ∧
    (so ≤ se → 0 < so →
       replace_original_file fs orig enc = (fs.erase enc, false)) ∧
    (so ≤ se →
       replace_original_file_cloudinary fs orig enc = (fs, false) ∧
       FS.lookup (replace_original_file_cloudinary fs orig enc).1 enc = some se) ∧
    (se < so → FS.lookup fs (orig ++ ".backup") = none →
       (replace_original_file_cloudinary fs orig enc).2 = true ∧
       FS.lookup (replace_original_file_cloudinary fs orig enc).1
         (orig ++ ".backup") = some so) := by
  have hgo : get_file_size fs orig = so := by simp [get_file_size, ho]
  have hge : get_file_size fs enc = se := by simp [get_file_size, he]
  have hob : ¬ (orig ++ ".backup") = orig := backup_path_ne orig
  have hob2 : ¬ orig = orig ++ ".backup" := fun hh => hob hh.symm
  have hbe : ¬ (orig ++ ".backup") = enc := fun hh => h2 hh.symm
  have hoe : ¬ orig = enc := h1
  have heb : ¬ enc = orig ++ ".backup" := h2
  refine ⟨?_, ?_, ?_, ?_⟩
  · intro hlt
    have hso : ¬ so = 0 := by omega
    have hnle : ¬ so ≤ se := by omega
    have r1 : osRename fs orig (orig ++ ".backup") =
        .ok ((fs.erase orig).setSize (orig ++ ".backup") so) := by
      simp [osRename, ho]
    have l1 : FS.lookup ((fs.erase orig).setSize (orig ++ ".backup") so) enc
        = some se := by
      rw [FS.lookup_setSize]
      simp [hbe, FS.lookup_erase, hoe, he]
    have r2 : osRename ((fs.erase orig).setSize (orig ++ ".backup") so) enc orig =
        .ok ((((fs.erase orig).setSize (orig ++ ".backup") so).erase enc).setSize
          orig se) := by
      simp [osRename, l1]
    have l2 : FS.lookup ((((fs.erase orig).setSize (orig ++ ".backup") so).erase
        enc).setSize orig se) (orig ++ ".backup") = some so := by
      rw [FS.lookup_setSize]
      simp [hob2, FS.lookup_erase, heb, FS.lookup_setSize]
    have r3 : osRemove ((((fs.erase orig).setSize (orig ++ ".backup") so).erase
        enc).setSize orig se) (orig ++ ".backup") =
        .ok (((((fs.erase orig).setSize (orig ++ ".backup") so).erase enc).setSize
          orig se).erase (orig ++ ".backup")) := by
      simp [osRemove, l2]
    have htry : replaceTry fs orig enc =
        .ok (((((fs.erase orig).setSize (orig ++ ".backup") so).erase enc).setSize
          orig se).erase (orig ++ ".backup"), true) := by
      simp [replaceTry, hgo, hge, hso, hnle, r1, r2, r3]
    refine ⟨by simp [replace_original_file, htry], ?_⟩
    simp [replace_original_file, htry, FS.lookup_erase]
  · intro hle hpos
    have hso : ¬ so = 0 := by omega
    have htry : replaceTry fs orig enc = .ok (fs.erase enc, false) := by
      simp [replaceTry, hgo, hge, hso, hle, osRemove, he]
    simp [replace_original_file, htry]
  · intro hle
    have hcloud : replace_original_file_cloudinary fs orig enc = (fs, false) := by
      simp [replace_original_file_cloudinary, cloudinaryReplaceTry, hgo, hge, hle]
    exact ⟨hcloud, by simp [hcloud, he]⟩
  · intro hlt hbnone
    have hnle : ¬ so ≤ se := by omega
    have r1 : osRename fs orig (orig ++ ".backup") =
        .ok ((fs.erase orig).setSize (orig ++ ".backup") so) := by
      simp [osRename, ho]
    have l1 : FS.lookup ((fs.erase orig).setSize (orig ++ ".backup") so) enc
        = some se := by
      rw [FS.lookup_setSize]
      simp [hbe, FS.lookup_erase, hoe, he]
    have r2 : osRename ((fs.erase orig).setSize (orig ++ ".backup") so) enc orig =
        .ok ((((fs.erase orig).setSize (orig ++ ".backup") so).erase enc).setSize
          orig se) := by
      simp [osRename, l1]
    have lnew : get_file_size ((((fs.erase orig).setSize (orig ++ ".backup")
        so).erase enc).setSize orig se) orig = se := by
      simp [get_file_size, FS.lookup_setSize]
    have hres : replace_original_file_cloudinary fs orig enc =
        ((((fs.erase orig).setSize (orig ++ ".backup") so).erase enc).setSize
          orig se, true) := by
      simp [replace_original_file_cloudinary, cloudinaryReplaceTry, hgo, hge,
        hnle, hbnone, r1, r2, lnew]
    refine ⟨by simp [hres], ?_⟩
    rw [hres]
    simp only [FS.lookup_setSize, FS.lookup_erase]
    simp [hob2, heb, FS.lookup_setSize]

/-- Witness for C9 at a concrete state: a 100-byte original and a 50-byte
encoded temp file (success side), with the rejection implications
vacuously instantiable at the same input. -/
theorem C9_replace_steps_amended_witness :
    (50 < 100 →
       replace_original_file [("/v/a.mp4", 100), ("/t/e.mp4", 50)]
           "/v/a.mp4" "/t/e.mp4" =
         (((((FS.erase [("/v/a.mp4", 100), ("/t/e.mp4", 50)] "/v/a.mp4").setSize
             ("/v/a.mp4" ++ ".backup") 100).erase "/t/e.mp4").setSize
             "/v/a.mp4" 50).erase ("/v/a.mp4" ++ ".backup"), true) ∧
       FS.lookup (replace_original_file [("/v/a.mp4", 100), ("/t/e.mp4", 50)]
           "/v/a.mp4" "/t/e.mp4").1 ("/v/a.mp4" ++ ".backup") = none) ∧
    (100 ≤ 50 → 0 < 100 →
       replace_original_file [("/v/a.mp4", 100), ("/t/e.mp4", 50)]
           "/v/a.mp4" "/t/e.mp4" =
         (FS.erase [("/v/a.mp4", 100), ("/t/e.mp4", 50)] "/t/e.mp4", false)) ∧
    (100 ≤ 50 →
       replace_original_file_cloudinary [("/v/a.mp4", 100), ("/t/e.mp4", 50)]
           "/v/a.mp4" "/t/e.mp4" = ([("/v/a.mp4", 100), ("/t/e.mp4", 50)], false) ∧
       FS.lookup (replace_original_file_cloudinary
           [("/v/a.mp4", 100), ("/t/e.mp4", 50)] "/v/a.mp4" "/t/e.mp4").1
         "/t/e.mp4" = some 50) ∧
    (50 < 100 →
       FS.lookup [("/v/a.mp4", 100), ("/t/e.mp4", 50)] ("/v/a.mp4" ++ ".backup")
           = none →
       (replace_original_file_cloudinary [("/v/a.mp4", 100), ("/t/e.mp4", 50)]
           "/v/a.mp4" "/t/e.mp4").2 = true ∧
       FS.lookup (replace_original_file_cloudinary
           [("/v/a.mp4", 100), ("/t/e.mp4", 50)] "/v/a.mp4" "/t/e.mp4").1
         ("/v/a.mp4" ++ ".backup") = some 100) :=
  C9_replace_steps_amended [("/v/a.mp4", 100), ("/t/e.mp4", 50)]
    "/v/a.mp4" "/t/e.mp4" 100 50 (by decide) (by decide) (by decide) (by decide)

/-- C9 counterexample: in the Cloudinary variant a successful replacement
leaves the backup file behind, and a size-rejection returns `False`
without discarding the encoded temp file — refuting the claim as stated
over all orchestrator variants. -/
theorem C9_counterexample :
    ((replace_original_file_cloudinary [("/v/a.mp4", 100), ("/t/e.mp4", 50)]
        "/v/a.mp4" "/t/e.mp4").2 = true ∧
     FS.lookup (replace_original_file_cloudinary
        [("/v/a.mp4", 100), ("/t/e.mp4", 50)] "/v/a.mp4" "/t/e.mp4").1
       "/v/a.mp4.backup" = some 100) ∧
    ((replace_original_file_cloudinary [("/v/a.mp4", 50), ("/t/e.mp4", 60)]
        "/v/a.mp4" "/t/e.mp4").2 = false ∧
     FS.lookup (replace_original_file_cloudinary
        [("/v/a.mp4", 50), ("/t/e.mp4", 60)] "/v/a.mp4" "/t/e.mp4").1
       "/t/e.mp4" = some 60) := by decide

theorem contains_add (reg : Registry) (q : String) (o s : Nat) (n p : String) :
    is_file_already_encoded (add_encoded_file reg q o s n) p =
      (is_file_already_encoded reg p || decide (q = p)) := by
  simp [is_file_already_encoded, add_encoded_file, List.any_append]

theorem contains_applyAdds (reg : Registry)
    (adds : List (String × Nat × Nat × String)) (p : String)
    (h : is_file_already_encoded reg p = true) :
    is_file_already_encoded (applyAdds reg adds) p = true := by
  induction adds generalizing reg with
  | nil => simpa [applyAdds] using h
  | cons a rest ih =>
    simp only [applyAdds, List.foldl_cons]
    apply ih
    rw [contains_add, h]
    simp

/-- C2: once `add_encoded_file` has recorded a path, any later sweep —
after arbitrarily many further registry additions and regardless of the
current file-system state — finds `is_file_already_encoded` true and
`process_single_video_async` skips the file before dispatch: the encode
backend is not invoked, nothing is logged, and neither the registry nor
the file system is touched. -/
theorem C2_registry_idempotency (reg : Registry) (p now : String)
    (osz esz : Nat) (later : List (String × Nat × Nat × String)) (fs' : FS)
    (now' : String) (e : FfmpegEnv) :
    is_file_already_encoded
      (applyAdds (add_encoded_file reg p osz esz now) later) p = true ∧
    process_single_video
      (applyAdds (add_encoded_file reg p osz esz now) later) fs' p now' e
      = ⟨false, false, false,
          applyAdds (add_encoded_file reg p osz esz now) later, fs', []⟩ := by
  have h0 : is_file_already_encoded (add_encoded_file reg p osz esz now) p
      = true := by
    rw [contains_add]
    simp
  have h1 := contains_applyAdds _ later p h0
  exact ⟨h1, by simp [process_single_video, h1]⟩

/-- C6: in both orchestrator variants, `should_encode_video` returns
`False` exactly when the file's size is below the 10 MiB minimum, or above
the 500 MiB maximum, or the lowercased base name contains one of the
configured already-optimized marker substrings; it is a pure predicate of
the read size and name (as its embedding type `FS → String → Bool` makes
explicit, it mutates neither the file system nor the registry). -/
theorem C6_eligibility_iff (fs : FS) (p : String) :
    (should_encode_video fs p = false ↔
      get_file_size fs p < min_size_mb * 1024 * 1024 ∨
      max_size_mb * 1024 * 1024 < get_file_size fs p ∨
      ∃ pat ∈ skip_patterns, strContains (lowerName (basename p)) pat = true) ∧
    (should_encode_video_cloudinary fs p = false ↔
      get_file_size fs p < min_size_mb * 1024 * 1024 ∨
      max_size_mb * 1024 * 1024 < get_file_size fs p ∨
      ∃ pat ∈ skip_patterns_cloudinary,
        strContains (lowerName (basename p)) pat = true) := by
  constructor
  · simp only [should_encode_video]
    split_ifs with h1 h2 h3 <;> simp_all [List.any_eq_true]
  · simp only [should_encode_video_cloudinary]
    split_ifs with h1 h2 h3 <;> simp_all [List.any_eq_true]

/-- Witness for C6 evaluated at a concrete 20 MiB file whose name carries
no skip marker (the theorem itself has no hypotheses; this confirms the
embedded predicate evaluates on a concrete input). -/
theorem C6_eligibility_iff_example :
    should_encode_video [("/v/2024/01/02/a.mp4", 20971520)]
      "/v/2024/01/02/a.mp4" = true ∧
    should_encode_video [("/v/2024/01/02/a_720p.mp4", 20971520)]
      "/v/2024/01/02/a_720p.mp4" = false ∧
    should_encode_video_cloudinary [("/v/a_cloudinary.mp4", 20971520)]
      "/v/a_cloudinary.mp4" = false ∧
    should_encode_video [("/v/a_cloudinary.mp4", 20971520)]
      "/v/a_cloudinary.mp4" = true := by decide

theorem encode_ffmpeg_rows (fs : FS) (p : String) (e : FfmpegEnv) :
    (encode_video_ffmpeg fs p e).2.1.length = 1 := by
  simp only [encode_video_ffmpeg]
  cases e.result with
  | timedOut => simp
  | completed rc =>
    by_cases hrc : rc ≠ 0
    · simp [hrc]
    · simp only [hrc, if_false]
      cases h : FS.lookup (applyOut fs (ffmpegTempPath p) e.out) (ffmpegTempPath p) with
      | none => simp [h]
      | some sz => simp only [h]; split_ifs <;> simp

/-- C3: every dispatched encode attempt appends exactly one CSV audit row
— the attempt pipeline `process_single_video` writes one row whenever the
backend is invoked (success, backend failure, re-raised timeout, or
size-rejection, where the replacer adds no further row) and zero rows when
the file is skipped before dispatch; the CloudConvert backend
`encode_video` likewise writes exactly one row per attempt. -/
theorem C3_audit_exactly_one_row (reg : Registry) (fs : FS) (p now : String)
    (e : FfmpegEnv) (fs2 : FS) (p2 : String) (e2 : CcEnv) :
    (process_single_video reg fs p now e).csv.length =
      (if (process_single_video reg fs p now e).encodeInvoked then 1 else 0) ∧
    (encode_video_cc fs2 p2 e2).2.1.length = 1 := by
  constructor
  · have hlen := encode_ffmpeg_rows fs p e
    rcases hE : encode_video_ffmpeg fs p e with ⟨fs1, rows, encOpt, raised⟩
    rw [hE] at hlen
    simp only at hlen
    by_cases h1 : is_file_already_encoded reg p = true
    · simp [process_single_video, h1]
    · by_cases h2 : should_encode_video fs p = true
      · have hinv : (process_single_video reg fs p now e).csv = rows ∧
            (process_single_video reg fs p now e).encodeInvoked = true := by
          simp only [process_single_video, h1, h2, hE, if_false, Bool.not_true,
            Bool.false_eq_true, if_true]
          cases raised with
          | true => simp
          | false =>
            cases encOpt with
            | none => simp
            | some encoded_file =>
              rcases hR : replace_original_file fs1 p encoded_file with ⟨fs3, b⟩
              cases b <;> simp [hR]
        rw [hinv.1, hinv.2]
        simp [hlen]
      · simp [process_single_video, h1, h2]
  · simp only [encode_video_cc]
    split_ifs <;> simp

/-- C4: evaluation of the orchestrator at the failing input — a folder
with two eligible files where FFmpeg times out on the first. The first
attempt logs its `ffmpeg_timeout` row and re-raises, but
`asyncio.gather(..., return_exceptions=True)` captures the exception, so
the second (queued) file is still attempted and replaced, the scan returns
normally with count 1, and `main` exits 0 — the run is not aborted and the
timeout-specific exit code 2 is never produced, contrary to the claim and
to the source's own comment "Timeout is a critical error - stop
processing". -/
theorem C4_timeout_does_not_abort_run :
    (process_videos_async [] fsC4 "2024-01-02T00:00:00" filesC4).2.2.map
        (fun o => (o.encodeInvoked, o.replaced, o.raised)) =
      [(true, false, true), (true, true, false)] ∧
    (process_videos_async [] fsC4 "2024-01-02T00:00:00" filesC4).2.2.map
        (fun o => o.csv) =
      [[⟨"x.mp4", 20971520, 0, "ffmpeg_timeout"⟩],
       [⟨"y.mp4", 20971520, 5242880, "ffmpeg_success"⟩]] ∧
    processed_count
      (process_videos_async [] fsC4 "2024-01-02T00:00:00" filesC4).2.2 = 1 ∧
    main_exit_code none = 0 := by decide

/-- C5: the concurrency bound — from an initial state with `M ≥ 3` waiting
attempts and nothing dispatched, every state reachable under the
semaphore/worker-pool transition system keeps at most
`MAX_CONCURRENT_JOBS = 3` attempts simultaneously in the
dispatched-but-not-completed state. -/
theorem C5_concurrency_bound (M : Nat) (s : SchedState)
    (hM : MAX_CONCURRENT_JOBS ≤ M)
    (h : SemReach MAX_CONCURRENT_JOBS ⟨M, 0, 0⟩ s) :
    s.running ≤ MAX_CONCURRENT_JOBS := by
  induction h with
  | refl => show (0 : Nat) ≤ 3; omega
  | step hreach hstep ih =>
    cases hstep with
    | acquire w r c hw hr =>
      have hr' : r < 3 := hr
      show r + 1 ≤ 3
      omega
    | release w r c hr =>
      have ih' : r ≤ 3 := ih
      show r - 1 ≤ 3
      omega

/-- Witness for C5: a concrete reachable state with one running attempt
out of three initially waiting. -/
theorem C5_concurrency_bound_witness :
    (⟨2, 1, 0⟩ : SchedState).running ≤ MAX_CONCURRENT_JOBS :=
  C5_concurrency_bound 3 ⟨2, 1, 0⟩ (by decide)
    (SemReach.step SemReach.refl (SemStep.acquire 3 0 0 (by decide) (by decide)))

theorem serializeMain_shape (l : List EncRecord) :
    isClaimedRegistryShape (serializeMainRegistry l) = true := by
  simp only [serializeMainRegistry, isClaimedRegistryShape, List.all_eq_true]
  intro j hj
  obtain ⟨r, _, rfl⟩ := List.mem_map.mp hj
  rfl

/-- C7 (amended): every `add_encoded_file` call rewrites the full persisted
structure to storage before returning, in both variants. The persisted
structure is the single record `{"encoded_files": [{filename, path,
encoded_date, original_size, encoded_size}, ...]}` in the
CloudConvert/FFmpeg orchestrator; the Cloudinary orchestrator instead
persists a map keyed directly by file path whose values hold
`{original_size, encoded_size, encoded_date, cloudinary_public_id}`. -/
theorem C7_registry_rewrite_amended (s : MainRegistryState) (p now : String)
    (osz esz : Nat) (t : CloudRegistryState) (p2 now2 pid : String)
    (osz2 esz2 : Nat) :
    (add_encoded_file_state s p osz esz now).storage =
      some (serializeMainRegistry
        (add_encoded_file_state s p osz esz now).encoded_files) ∧
    (add_encoded_file_state s p osz esz now).encoded_files =
      s.encoded_files ++ [⟨basename p, p, now, osz, esz⟩] ∧
    isClaimedRegistryShape (serializeMainRegistry
      (add_encoded_file_state s p osz esz now).encoded_files) = true ∧
    (add_encoded_file_cloudinary t p2 osz2 esz2 now2 pid).storage =
      some (serializeCloudRegistry
        (add_encoded_file_cloudinary t p2 osz2 esz2 now2 pid).encoded_files) := by
  refine ⟨rfl, ?_, serializeMain_shape _, rfl⟩
  simp [add_encoded_file_state, save_encoded_files, add_encoded_file]

/-- C7 counterexample: starting from an empty Cloudinary registry, one
`add_encoded_file` call persists a structure keyed by the file path — not
the claimed `{"encoded_files": [...]}` record. -/
theorem C7_counterexample :
    (add_encoded_file_cloudinary cloudState0
        "/Users/volkanoluc/videos/2024/01/02/a.mp4" 104857600 52428800
        "2024-01-02T00:00:00" "video_optimizer/1_a").storage.map
      isClaimedRegistryShape = some false := rfl

theorem lexLt_trans {a b c : List Char} (h1 : lexLt a b = true)
    (h2 : lexLt b c = true) : lexLt a c = true := by
  induction a generalizing b c with
  | nil =>
    cases b with
    | nil => simp [lexLt] at h1
    | cons b0 bs =>
      cases c with
      | nil => simp [lexLt] at h2
      | cons c0 cs => simp [lexLt]
  | cons a0 as ih =>
    cases b with
    | nil => simp [lexLt] at h1
    | cons b0 bs =>
      cases c with
      | nil => simp [lexLt] at h2
      | cons c0 cs =>
        simp only [lexLt] at h1 h2 ⊢
        split_ifs at h1 h2 ⊢ <;>
          first
          | rfl
          | (exact ih h1 h2)
          | (exfalso; omega)
          | simp_all

theorem lexLt_asymm {a b : List Char} (h : lexLt a b = true) :
    lexLt b a = false := by
  induction a generalizing b with
  | nil =>
    cases b with
    | nil => simp [lexLt] at h
    | cons b0 bs => simp [lexLt]
  | cons a0 as ih =>
    cases b with
    | nil => simp [lexLt] at h
    | cons b0 bs =>
      simp only [lexLt] at h ⊢
      split_ifs at h ⊢ <;>
        first
        | rfl
        | (exact ih h)
        | (exfalso; omega)
        | simp_all

theorem lexLt_eq_of_not {a b : List Char} (h1 : lexLt a b = false)
    (h2 : lexLt b a = false) : a = b := by
  induction a generalizing b with
  | nil =>
    cases b with
    | nil => rfl
    | cons b0 bs => simp [lexLt] at h1
  | cons a0 as ih =>
    cases b with
    | nil => simp [lexLt] at h2
    | cons b0 bs =>
      simp only [lexLt] at h1 h2
      by_cases hab : a0.toNat < b0.toNat
      · rw [if_pos hab] at h1
        exact absurd h1 (by simp)
      · by_cases hba : b0.toNat < a0.toNat
        · rw [if_pos hba] at h2
          exact absurd h2 (by simp)
        · rw [if_neg hab, if_neg hba] at h1
          rw [if_neg hba, if_neg hab] at h2
          have hn : a0.toNat = b0.toNat := by omega
          have he : a0 = b0 := Char.eq_of_val_eq (UInt32.toNat.inj hn)
          rw [he, ih h1 h2]

theorem strLeB_trans {a b c : String} (h1 : strLeB a b = true)
    (h2 : strLeB b c = true) : strLeB a c = true := by
  simp only [strLeB, strLtB, Bool.not_eq_true'] at h1 h2 ⊢
  cases hca : lexLt c.data a.data with
  | false => rfl
  | true =>
    exfalso
    cases hab : lexLt a.data b.data with
    | true =>
      rw [lexLt_trans hca hab] at h2
      simp at h2
    | false =>
      have heq : a.data = b.data := lexLt_eq_of_not hab h1
      rw [← heq, hca] at h2
      simp at h2

theorem strLeB_total (a b : String) : strLeB a b || strLeB b a := by
  simp only [strLeB, strLtB, Bool.or_eq_true, Bool.not_eq_true']
  by_cases h : lexLt b.data a.data = true
  · right
    exact lexLt_asymm h
  · left
    simpa using h

theorem strLtB_of_strLeB_ne {a b : String} (h1 : strLeB a b = true)
    (h2 : a ≠ b) : strLtB a b = true := by
  simp only [strLeB, Bool.not_eq_true', strLtB] at h1 ⊢
  cases hx : lexLt a.data b.data with
  | true => rfl
  | false =>
    exfalso
    apply h2
    have hd : a.data = b.data := lexLt_eq_of_not hx h1
    cases a
    cases b
    exact congrArg String.mk hd

theorem strLeB_of_strLtB {a b : String} (h : strLtB a b = true) :
    strLeB a b = true := by
  simp only [strLeB, strLtB, Bool.not_eq_true'] at h ⊢
  exact lexLt_asymm h

theorem pairwise_lt_sortkeep {α : Type} (isDir : α → Bool) (name : α → String)
    (l : List α) (h : (l.map name).Nodup) :
    (keepDigitDir isDir name (sortByName name l)).Pairwise
      (fun a b => strLtB (name a) (name b) = true) := by
  have hperm : List.Perm (sortByName name l) l :=
    List.mergeSort_perm l _
  have hle : (sortByName name l).Pairwise
      (fun a b => strLeB (name a) (name b) = true) :=
    @List.sorted_mergeSort α (fun a b => strLeB (name a) (name b))
      (fun a b c hab hbc => strLeB_trans hab hbc)
      (fun a b => strLeB_total (name a) (name b)) l
  have hne0 : l.Pairwise (fun a b => name a ≠ name b) :=
    (List.pairwise_map).mp h
  have hne : (sortByName name l).Pairwise (fun a b => name a ≠ name b) :=
    (hperm.pairwise_iff (fun hxy h => hxy h.symm)).mpr hne0
  have hlt : (sortByName name l).Pairwise
      (fun a b => strLtB (name a) (name b) = true) :=
    (hle.and hne).imp (fun hab => strLtB_of_strLeB_ne hab.1 hab.2)
  exact hlt.sublist (List.filter_sublist _)

theorem mem_sortkeep {α : Type} {isDir : α → Bool} {name : α → String}
    {l : List α} {a : α} (h : a ∈ keepDigitDir isDir name (sortByName name l)) :
    a ∈ l := by
  have h1 : a ∈ sortByName name l := List.mem_of_mem_filter h
  exact (List.mergeSort_perm l _).mem_iff.mp h1

theorem pairwise_flatMap {α β : Type} {R : α → α → Prop} {S : β → β → Prop}
    {l : List α} {f : α → List β}
    (hl : l.Pairwise R)
    (hin : ∀ a ∈ l, (f a).Pairwise S)
    (hcross : ∀ a ∈ l, ∀ b ∈ l, R a b → ∀ x ∈ f a, ∀ y ∈ f b, S x y) :
    (l.flatMap f).Pairwise S := by
  induction l with
  | nil => simp
  | cons a rest ih =>
    rw [List.flatMap_cons, List.pairwise_append]
    obtain ⟨haR, hrest⟩ := List.pairwise_cons.mp hl
    refine ⟨hin a (by simp), ?_, ?_⟩
    · exact ih hrest (fun b hb => hin b (by simp [hb]))
        (fun x hx y hy hxy => hcross x (by simp [hx]) y (by simp [hy]) hxy)
    · intro x hx y hy
      obtain ⟨b, hbmem, hyb⟩ := List.mem_flatMap.mp hy
      exact hcross a (by simp) b (by simp [hbmem]) (haR b hbmem) x hx y hyb

theorem mem_month_walk {yname : String} {m : MonthNode}
    {x : String × String × String × DayListing} (h : x ∈ month_walk yname m) :
    x.1 = yname ∧ x.2.1 = m.name := by
  obtain ⟨d, _, rfl⟩ := List.mem_map.mp h
  exact ⟨rfl, rfl⟩

theorem mem_year_walk {y : YearNode}
    {x : String × String × String × DayListing} (h : x ∈ year_walk y) :
    x.1 = y.name := by
  obtain ⟨m, _, hxm⟩ := List.mem_flatMap.mp h
  exact (mem_month_walk hxm).1

theorem month_walk_pairwise {yname : String} {m : MonthNode}
    (h : (m.days.map (fun d => d.name)).Nodup) :
    (month_walk yname m).Pairwise tripleLe := by
  have hdays := pairwise_lt_sortkeep (fun d => d.isDir) (fun d => d.name) m.days h
  rw [month_walk, List.pairwise_map]
  exact hdays.imp (fun hab =>
    Or.inr ⟨rfl, Or.inr ⟨rfl, strLeB_of_strLtB hab⟩⟩)

theorem year_walk_pairwise {y : YearNode}
    (hm : (y.months.map (fun m => m.name)).Nodup)
    (hd : ∀ m ∈ y.months, (m.days.map (fun d => d.name)).Nodup) :
    (year_walk y).Pairwise tripleLe := by
  rw [year_walk]
  apply pairwise_flatMap
    (pairwise_lt_sortkeep (fun m => m.isDir) (fun m => m.name) y.months hm)
  · intro m hmem
    exact month_walk_pairwise (hd m (mem_sortkeep hmem))
  · intro m1 _ m2 _ h12 x hx y hy
    obtain ⟨hx1, hx2⟩ := mem_month_walk hx
    obtain ⟨hy1, hy2⟩ := mem_month_walk hy
    right
    refine ⟨hx1.trans hy1.symm, ?_⟩
    left
    rw [hx2, hy2]
    exact h12

theorem date_folders_pairwise (years : List YearNode)
    (hY : (years.map (fun y => y.name)).Nodup)
    (hM : ∀ y ∈ years, (y.months.map (fun m => m.name)).Nodup)
    (hD : ∀ y ∈ years, ∀ m ∈ y.months, (m.days.map (fun d => d.name)).Nodup) :
    (date_folders years).Pairwise tripleLe := by
  rw [date_folders]
  apply pairwise_flatMap
    (pairwise_lt_sortkeep (fun y => y.isDir) (fun y => y.name) years hY)
  · intro y hy
    exact year_walk_pairwise (hM y (mem_sortkeep hy)) (hD y (mem_sortkeep hy))
  · intro y1 _ y2 _ h12 x hx y hy
    left
    rw [mem_year_walk hx, mem_year_walk hy]
    exact h12

/-- C8 (amended): in the CloudConvert/FFmpeg orchestrator, discovery
visits day partitions in ascending lexicographic order of their
directory-name strings (year, then month, then day — numeric ascending
exactly when the names are zero-padded to equal width), given the
listings' names are duplicate-free; within each day folder the candidates
are a subsequence of the raw directory listing (glob order), not sorted by
filename. The Cloudinary orchestrator's walker applies no sorting at all:
on a tree whose year listing arrives as [2024, 2023] it visits 2024 first. -/
theorem C8_order_amended (years : List YearNode)
    (hY : (years.map (fun y => y.name)).Nodup)
    (hM : ∀ y ∈ years, (y.months.map (fun m => m.name)).Nodup)
    (hD : ∀ y ∈ years, ∀ m ∈ y.months, (m.days.map (fun d => d.name)).Nodup) :
    (date_folders years).Pairwise tripleLe ∧
    (∀ listing : DayListing,
      List.Sublist (find_video_files listing) (listing.map (fun e => e.1))) ∧
    date_folders_cloudinary treeC8c =
      [("2024", "01", "02", []), ("2023", "01", "02", [])] ∧
    strLtB "2023" "2024" = true := by
  refine ⟨date_folders_pairwise years hY hM hD, ?_, by decide, by decide⟩
  intro listing
  simp only [find_video_files]
  exact List.Sublist.map _ (List.filter_sublist _)

/-- Witness for C8 at the concrete tree `treeC8` (two years, unsorted day
listings), with the nodup side conditions discharged by evaluation. -/
theorem C8_order_amended_witness :
    (date_folders treeC8).Pairwise tripleLe ∧
    List.Sublist (find_video_files [("b.mp4", true), ("a.mp4", true)])
      ([("b.mp4", true), ("a.mp4", true)].map (fun e => e.1)) ∧
    date_folders_cloudinary treeC8c =
      [("2024", "01", "02", []), ("2023", "01", "02", [])] ∧
    strLtB "2023" "2024" = true := by
  obtain ⟨h1, h2, h3, h4⟩ :=
    C8_order_amended treeC8 (by decide) (by decide) (by decide)
  exact ⟨h1, h2 _, h3, h4⟩

/-- C8 counterexample: `find_video_files` yields the candidates of a day
folder in raw listing order — on the listing [b.mp4, a.mp4] the produced
sequence is not sorted ascending by filename, refuting the claimed
ordering. -/
theorem C8_counterexample :
    find_video_files [("b.mp4", true), ("a.mp4", true)] = ["b.mp4", "a.mp4"] ∧
    strLtB "a.mp4" "b.mp4" = true ∧
    ¬ (find_video_files [("b.mp4", true), ("a.mp4", true)]).Pairwise
        (fun x y : String => strLeB x y = true) := by decide
